import Mathlib

deriving instance DecidableEq for Except

/-!
Shallow embedding of the chunk-and-aggregate analysis pipeline of
`src/backend/main.py` (personal-health-dashboard), together with theorems
settling the specification claims about it.

Modelling conventions:
* Document text and page texts are `List Char`; status messages and JSON
  string fields are `String`.
* A Python dict parsed from a model response is a `ChunkResult` whose four
  known keys are `Option`-valued (`none` = key absent); `dict.get(k, [])`
  becomes `Option.getD`, and a plain `dict[k]` access that can raise
  `KeyError` becomes a `none`-propagating computation.
* The outcome of the HTTP call + body parse for one chunk (network, HTTP
  status, `json.loads`) is abstracted by an oracle `Nat → CallOutcome` indexed by
  the chunk index; everything else is translated from the source.
* `await broadcast_status_update(...)` calls and the HTTP POST are recorded
  in an event trace (`List Ev`); the order of the trace is the execution
  order of the (single-task, cooperatively scheduled) coroutine.
* A raised-and-uncaught Python exception is an `Except.error` / `none`
  result; `fastapi.HTTPException` subclasses `Exception`, so the
  `except Exception` block in `handle_pdf_upload` catches the 400 raised
  by the filename check and rewraps it (status 500, message
  `str(error) = "400: Only PDF files are allowed"` prefixed by
  "Error processing file: ").
-/

namespace PHD

/-- One row of `abnormal_results` as described by the prompt schema
(`test_name`, `value`, `reference_range`, `interpretation`). -/
structure AbnormalResult where
  test_name : String
  value : String
  reference_range : String
  interpretation : String
deriving DecidableEq, Repr

/-- A chart specification; the pipeline treats chart items as opaque JSON
values that are only ever passed through, so the payload is abstract. -/
structure Chart where
  payload : String
deriving DecidableEq, Repr

/-- The dict parsed from the model response for one chunk (`json.loads` of
`choices[0].message.content`).  Each known key may be absent (`none`). -/
structure ChunkResult where
  summary : Option String
  abnormal_results : Option (List AbnormalResult)
  charts : Option (List Chart)
  recommendations : Option (List String)
deriving DecidableEq, Repr

/-- The aggregated dict built at `main.py` lines 189-194 and returned to the
caller. -/
structure AggregatedResult where
  summary : String
  abnormal_results : List AbnormalResult
  charts : List Chart
  recommendations : List String
deriving DecidableEq, Repr

/-- Models `fastapi.HTTPException(status_code, detail)` as surfaced to the
caller. -/
structure HTTPError where
  status_code : Nat
  detail : String
deriving DecidableEq, Repr

/-- Python `filename.endswith(".pdf")` (line 63): is `".pdf"` a suffix of
the character sequence of the filename. -/
def endsWithPdf (filename : String) : Bool :=
  ".pdf".toList.isSuffixOf filename.toList

/-! ### Progress broadcaster (`main.py` lines 37-54)

Subscribers are identified by a connection handle, modelled as `Nat`.
The process-wide `active_connections` set is a `Finset Nat`; Python `set`
iteration order is unspecified, so `broadcast_status_update` is modelled on
an explicit iteration order (a `List Nat`). -/

/-- Line 42, `active_connections.add(websocket)`: Python `set.add`, a
no-op when the element is already present. -/
def register (conns : Finset Nat) (s : Nat) : Finset Nat :=
  insert s conns

/-- Line 49, `active_connections.remove(websocket)`: Python `set.remove`,
which raises `KeyError` when the element is absent. -/
def unregister (conns : Finset Nat) (s : Nat) : Except String (Finset Nat) :=
  if s ∈ conns then Except.ok (conns.erase s) else Except.error "KeyError"

/-- Lines 52-54, `broadcast_status_update`: iterate over the connections,
`await connection.send_json({"status": msg})` on each.  `send c = true`
means the send to `c` succeeds.  There is no exception handler in the loop:
the first failing send raises out of the function and the remaining
connections are never reached.  Returns the deliveries actually made (in
order) and `some c` when the send to `c` raised (`none` = returned
normally). -/
def broadcast_status_update (send : Nat → Bool) (msg : String) :
    List Nat → List (Nat × String) × Option Nat
  | [] => ([], none)
  | c :: rest =>
    if send c then
      let out := broadcast_status_update send msg rest
      ((c, msg) :: out.1, out.2)
    else
      ([], some c)

/-! ### Content chunker (`main.py` line 109) -/

/-- The fixed slice width used at line 109. -/
def chunkSize : Nat := 1500

/-- Python slicing `[text[i:i+n] for i in range(0, len(text), n)]`: the
`k`-th slice starts
at `n*k` and takes at most `n` characters; `range(0, L, n)` has
`⌈L / n⌉ = (L + n - 1) / n` elements. -/
def chunksBy (n : Nat) (text : List Char) : List (List Char) :=
  (List.range ((text.length + n - 1) / n)).map
    (fun k => (text.drop (n * k)).take n)

/-- Line 109:
`content_chunks = [pdf_content[i:i+1500] for i in range(0, len(pdf_content), 1500)]`. -/
def content_chunks (text : List Char) : List (List Char) :=
  chunksBy chunkSize text

/-! ### Trace events -/

/-- The stage of a per-chunk broadcast inside the chunk loop. -/
inductive ChunkStage where
  | processing (total : Nat)
  | sending
  | received
  | parsed
  | errored (emsg : String)
deriving DecidableEq, Repr

/-- The exact broadcast string of a per-chunk stage for chunk index `i`
(0-based; the messages show `i+1`), from the f-strings at lines 114, 171,
175, 180, 183. -/
def ChunkStage.message : ChunkStage → Nat → String
  | .processing total, i =>
    let j := i + 1
    s!"Processing chunk {j} of {total}..."
  | .sending, i =>
    let j := i + 1
    s!"Sending request to AI model for chunk {j}"
  | .received, i =>
    let j := i + 1
    s!"Received response from AI model for chunk {j}"
  | .parsed, i =>
    let j := i + 1
    s!"Successfully parsed AI model response for chunk {j}"
  | .errored emsg, i =>
    let j := i + 1
    s!"Error processing chunk {j}: {emsg}"

/-- One observable step of the pipeline, in coroutine execution order:
a broadcast not tied to a chunk, a per-chunk broadcast (carrying its chunk
index; the exact string is `ChunkStage.message`), or the HTTP POST to the
model endpoint for a chunk. -/
inductive Ev where
  | status (msg : String)
  | chunk (stage : ChunkStage) (i : Nat)
  | modelCall (i : Nat)
deriving DecidableEq, Repr

/-- The chunk index of a `modelCall` event. -/
def evCall : Ev → Option Nat
  | .modelCall i => some i
  | _ => none

/-- The chunk index of a "Processing chunk i+1 of n..." broadcast. -/
def evProcessing : Ev → Option Nat
  | .chunk (.processing _) i => some i
  | _ => none

/-- The chunk index of any per-chunk event (broadcast or HTTP POST). -/
def evChunkIdx : Ev → Option Nat
  | .chunk _ i => some i
  | .modelCall i => some i
  | _ => none

/-! ### Model client (`main.py` lines 113-186) -/

/-- The outcome of the `try` block for one chunk, abstracting the network:
`httpError` = the POST, `raise_for_status()` or the body `json()` raised
(before the "Received response" broadcast); `parseError` = the inner
`json.loads` of `choices[0].message.content` raised (after it);
`success r` = the content parsed to the dict `r`.  The argument of the two
error constructors is Python `str(error)`. -/
inductive CallOutcome where
  | httpError (emsg : String)
  | parseError (emsg : String)
  | success (r : ChunkResult)
deriving DecidableEq, Repr

/-- The chunk result an outcome contributes to `all_analysis_results`
(`none` for either failure: the `except` block appends nothing). -/
def outcomeResult : CallOutcome → Option ChunkResult
  | .success r => some r
  | _ => none

/-- The trace of one iteration of the chunk loop (lines 113-186) for chunk
index `i` out of `total`: the "Processing" and "Sending" broadcasts, the
POST, then on success the "Received" and "Successfully parsed" broadcasts,
on an HTTP failure the error broadcast, on a parse failure the "Received"
broadcast followed by the error broadcast.  The `except` clause at line 181
catches the failure inside the loop. -/
def chunkBlock (o : Nat → CallOutcome) (total : Nat) (i : Nat) : List Ev :=
  [Ev.chunk (.processing total) i, Ev.chunk .sending i, Ev.modelCall i] ++
    match o i with
    | .success _ => [Ev.chunk .received i, Ev.chunk .parsed i]
    | .httpError emsg => [Ev.chunk (.errored emsg) i]
    | .parseError emsg => [Ev.chunk .received i, Ev.chunk (.errored emsg) i]

/-- The chunk loop `for chunk_index, chunk in enumerate(content_chunks)`
starting at index `i₀`: emits the block of each chunk in order and collects the
successfully parsed results in chunk order (line 179). -/
def chunkLoop (o : Nat → CallOutcome) (total : Nat) :
    Nat → List (List Char) → List Ev × List ChunkResult
  | _, [] => ([], [])
  | i, _chunk :: rest =>
    let tail := chunkLoop o total (i + 1) rest
    (chunkBlock o total i ++ tail.1, (outcomeResult (o i)).toList ++ tail.2)

/-! ### Result aggregator (`main.py` lines 188-194) -/

/-- `[result["summary"] for result in all_analysis_results]` (line 190):
a plain indexing that raises `KeyError` when any result lacks the key,
modelled as a `none`-propagating traversal. -/
def joinSummaries : List ChunkResult → Option (List String)
  | [] => some []
  | r :: rest =>
    match r.summary, joinSummaries rest with
    | some s, some ss => some (s :: ss)
    | _, _ => none

/-- The aggregation dict of lines 189-194.  `summary` is
`" ".join([result["summary"] ...])` — it raises (yields `none`) when a
result lacks the key — while the three list fields use
`result.get(field, [])` and flatten, tolerating absent keys. -/
def aggregated_results (rs : List ChunkResult) : Option AggregatedResult :=
  match joinSummaries rs with
  | none => none
  | some ss =>
    some
      { summary := String.intercalate " " ss
        abnormal_results := rs.flatMap (fun r => r.abnormal_results.getD [])
        charts := rs.flatMap (fun r => r.charts.getD [])
        recommendations := rs.flatMap (fun r => r.recommendations.getD []) }

/-- The aggregator as worded by the spec (§4.4): summaries joined with a
single space in input order, and each list field the flattened
concatenation across results, a missing field contributing an empty
sequence.  Stated for comparison with `aggregated_results`. -/
def aggregateSpec (rs : List ChunkResult) : AggregatedResult :=
  { summary := String.intercalate " " (rs.map (fun r => r.summary.getD ""))
    abnormal_results := rs.flatMap (fun r => r.abnormal_results.getD [])
    charts := rs.flatMap (fun r => r.charts.getD [])
    recommendations := rs.flatMap (fun r => r.recommendations.getD []) }

/-! ### Pipeline (`main.py` lines 87-101 and 104-197 and 57-84) -/

/-- Success path of `extract_text_from_pdf` (lines 89-96), given the page
texts the PDF reader yields: `extracted_text += page.extract_text() + "\n"`
for each page in order, with an "Extracted page i+1 of N" broadcast per
page.  Returns the trace and the concatenated text. -/
def extract_text_from_pdf (pages : List (List Char)) : List Ev × List Char :=
  ((List.range pages.length).map
      (fun i =>
        let j := i + 1
        let m := pages.length
        Ev.status s!"Extracted page {j} of {m}"),
    pages.flatMap (fun p => p ++ ['\n']))

/-- Lines 104-197, `analyze_pdf_content`: broadcast "Analyzing medical
report...", slice the content into 1500-character chunks, run the chunk
loop, then build the aggregation dict; when the aggregation raises
(a result without "summary") the exception propagates before the
"Finalizing analysis results..." broadcast, otherwise that broadcast is
emitted and the dict returned. -/
def analyze_pdf_content (o : Nat → CallOutcome) (pdf_content : List Char) :
    List Ev × Option AggregatedResult :=
  let chunks := content_chunks pdf_content
  let loop := chunkLoop o chunks.length 0 chunks
  match aggregated_results loop.2 with
  | some agg =>
    (Ev.status "Analyzing medical report..." ::
        (loop.1 ++ [Ev.status "Finalizing analysis results..."]),
      some agg)
  | none =>
    (Ev.status "Analyzing medical report..." :: loop.1, none)

/-- Lines 57-84, `handle_pdf_upload`.  Here `pdfOutcome` is the extraction
behaviour of the extraction collaborator when invoked (`Except.error e` = `PyPDF2` raised,
`str(error) = e`; the handler at line 101 in `extract_text_from_pdf`
re-raises the exception).  The whole body after the initial "File received"
broadcast sits in a `try` whose `except Exception` broadcasts
`"Error processing file: " ++ str(error)` and raises
`HTTPException(500, that message)` — this also catches the
`HTTPException(400, "Only PDF files are allowed")` raised by the filename
check, whose `str` is `"400: Only PDF files are allowed"`. -/
def handle_pdf_upload (pdfOutcome : Except String (List (List Char)))
    (o : Nat → CallOutcome) (filename : String) (fileBytes : List Nat) :
    List Ev × Except HTTPError AggregatedResult :=
  let received := Ev.status "File received. Initiating analysis..."
  if endsWithPdf filename then
    let nbytes := fileBytes.length
    let sizeEv := Ev.status s!"File size: {nbytes} bytes. Extracting content..."
    match pdfOutcome with
    | Except.error e =>
      let msg := "Error processing file: " ++ e
      ([received, sizeEv, Ev.status msg], Except.error ⟨500, msg⟩)
    | Except.ok pages =>
      let ext := extract_text_from_pdf pages
      let nchars := ext.2.length
      let extractedEv :=
        Ev.status s!"Extracted {nchars} characters from PDF. Analyzing content..."
      let ana := analyze_pdf_content o ext.2
      match ana.2 with
      | some agg =>
        ([received, sizeEv] ++ ext.1 ++ [extractedEv] ++ ana.1 ++
            [Ev.status "Analysis successfully completed."],
          Except.ok agg)
      | none =>
        let msg := "Error processing file: \x27summary\x27"
        ([received, sizeEv] ++ ext.1 ++ [extractedEv] ++ ana.1 ++ [Ev.status msg],
          Except.error ⟨500, msg⟩)
  else
    let msg := "Error processing file: 400: Only PDF files are allowed"
    ([received, Ev.status msg], Except.error ⟨500, msg⟩)

/-! ### Chunker lemmas -/

theorem chunksBy_nil (n : Nat) : chunksBy n [] = [] := by
  unfold chunksBy
  simp only [List.length_nil]
  have hz : (0 + n - 1) / n = 0 := by
    rcases Nat.eq_zero_or_pos n with rfl | hn
    · simp
    · exact Nat.div_eq_of_lt (by omega)
  rw [hz]
  rfl

theorem chunksBy_length (n : Nat) (text : List Char) :
    (chunksBy n text).length = (text.length + n - 1) / n := by
  simp [chunksBy]

theorem chunksBy_cons (n : Nat) (hn : 0 < n) (text : List Char) (h : text ≠ []) :
    chunksBy n text = text.take n :: chunksBy n (text.drop n) := by
  have hL : 0 < text.length := List.length_pos.mpr h
  unfold chunksBy
  have h1 : (text.length + n - 1) / n = (text.length - 1) / n + 1 := by
    have e : text.length + n - 1 = (text.length - 1) + n := by omega
    rw [e, Nat.add_div_right _ hn]
  have h2 : ((text.drop n).length + n - 1) / n = (text.length - 1) / n := by
    rw [List.length_drop]
    rcases le_or_lt text.length n with hle | hlt
    · have e1 : text.length - n = 0 := by omega
      have d1 : (0 + n - 1) / n = 0 := Nat.div_eq_of_lt (by omega)
      have d2 : (text.length - 1) / n = 0 := Nat.div_eq_of_lt (by omega)
      rw [e1, d1, d2]
    · congr 1
      omega
  rw [h1, h2, List.range_succ_eq_map, List.map_cons, List.map_map]
  refine congrArg₂ _ (by simp) (List.map_congr_left ?_)
  intro k _
  simp only [Function.comp_apply, Nat.mul_succ, List.drop_drop]
  rw [Nat.add_comm (n * k) n]

theorem chunksBy_flatten (n : Nat) (hn : 0 < n) (text : List Char) :
    (chunksBy n text).flatten = text := by
  rcases eq_or_ne text [] with rfl | h
  · simp [chunksBy]
  · rw [chunksBy_cons n hn text h, List.flatten_cons,
      chunksBy_flatten n hn (text.drop n), List.take_append_drop]
termination_by text.length
decreasing_by
  have hL : 0 < text.length := List.length_pos.mpr h
  simp only [List.length_drop]
  omega

theorem chunksBy_getElem (n k : Nat) (text : List Char)
    (hk : k < (chunksBy n text).length) :
    (chunksBy n text)[k] = (text.drop (n * k)).take n := by
  simp [chunksBy]

theorem chunksBy_getD (n k : Nat) (text : List Char)
    (hk : k < (chunksBy n text).length) :
    (chunksBy n text).getD k [] = (text.drop (n * k)).take n := by
  rw [List.getD_eq_getElem _ _ hk]
  exact chunksBy_getElem n k text hk

theorem content_chunks_length (T : List Char) :
    (content_chunks T).length = (T.length + 1499) / 1500 := by
  rw [content_chunks, chunksBy_length]
  simp only [chunkSize]
  omega

theorem content_chunks_getD (k : Nat) (T : List Char)
    (hk : k < (content_chunks T).length) :
    ((content_chunks T).getD k []).length = min 1500 (T.length - 1500 * k) := by
  rw [content_chunks] at hk ⊢
  rw [chunksBy_getD chunkSize k T hk]
  simp only [List.length_take, List.length_drop, chunkSize]

/-- C1: the 1500-character slicing at `main.py` line 109 concatenates back
to the input text, produces `⌈len(T) / 1500⌉` chunks (none for empty `T`),
every chunk except possibly the last has length exactly 1500, the last has
length `len(T) mod 1500` (or 1500 when 1500 divides evenly), and no chunk
is empty. -/
theorem chunking_exact_slices_C1 (T : List Char) :
    (content_chunks T).flatten = T
    ∧ (content_chunks T).length = T.length ⌈/⌉ 1500
    ∧ (content_chunks T = [] ↔ T = [])
    ∧ (∀ k, k + 1 < (content_chunks T).length →
        ((content_chunks T).getD k []).length = 1500)
    ∧ (T ≠ [] →
        ((content_chunks T).getD ((content_chunks T).length - 1) []).length =
          if T.length % 1500 = 0 then 1500 else T.length % 1500)
    ∧ (∀ c ∈ content_chunks T, c ≠ []) := by
  have hlen := content_chunks_length T
  have hch : (0 : Nat) < chunkSize := by norm_num [chunkSize]
  refine ⟨chunksBy_flatten chunkSize hch T, ?_, ?_, ?_, ?_, ?_⟩
  · rw [hlen, Nat.ceilDiv_eq_add_pred_div]
    omega
  · rw [← List.length_eq_zero, ← List.length_eq_zero, hlen]
    omega
  · intro k hk
    have hk' : k < (content_chunks T).length := by omega
    rw [content_chunks_getD k T hk', Nat.min_def]
    rw [hlen] at hk
    split <;> omega
  · intro hT
    have hT' : 0 < T.length := List.length_pos.mpr hT
    have hpos : 0 < (content_chunks T).length := by omega
    rw [content_chunks_getD _ T (by omega), Nat.min_def, hlen]
    rw [hlen] at hpos
    rcases Nat.eq_zero_or_pos (T.length % 1500) with hmod | hmod
    · rw [if_pos (by omega), if_pos hmod]
    · rw [if_neg (by omega), if_neg (by omega)]
      omega
  · intro c hc
    obtain ⟨k, hk, rfl⟩ := List.mem_iff_getElem.mp hc
    rw [← List.length_pos]
    have hbridge : (content_chunks T)[k] = (content_chunks T).getD k [] :=
      (List.getD_eq_getElem _ _ hk).symm
    rw [hbridge, content_chunks_getD k T hk, Nat.min_def]
    rw [hlen] at hk
    split <;> omega

/-- Witness for C1 at a concrete 3200-character text: three chunks of
lengths 1500, 1500, 200 that concatenate back to the text. -/
theorem chunking_exact_slices_C1_witness :
    (content_chunks (List.replicate 3200 'a')).flatten = List.replicate 3200 'a'
    ∧ (content_chunks (List.replicate 3200 'a')).length = 3
    ∧ ((content_chunks (List.replicate 3200 'a')).getD 0 []).length = 1500
    ∧ ((content_chunks (List.replicate 3200 'a')).getD
        ((content_chunks (List.replicate 3200 'a')).length - 1) []).length = 200 := by
  have h := chunking_exact_slices_C1 (List.replicate 3200 'a')
  have hr : (List.replicate 3200 'a').length = 3200 := List.length_replicate 3200 'a'
  have hne : List.replicate 3200 'a' ≠ [] := by
    rw [← List.length_pos, hr]
    norm_num
  have hcount : (content_chunks (List.replicate 3200 'a')).length = 3 := by
    rw [h.2.1, hr, Nat.ceilDiv_eq_add_pred_div]
  refine ⟨h.1, hcount, ?_, ?_⟩
  · exact h.2.2.2.1 0 (by rw [hcount]; norm_num)
  · have h5 := h.2.2.2.2.1 hne
    rw [hr] at h5
    rw [h5]
    norm_num

/-! ### Aggregator lemmas -/

theorem joinSummaries_all_some (rs : List ChunkResult)
    (h : ∀ r ∈ rs, (ChunkResult.summary r).isSome) :
    joinSummaries rs = some (rs.map (fun r => r.summary.getD "")) := by
  induction rs with
  | nil => rfl
  | cons r rest ih =>
    obtain ⟨s, hs⟩ := Option.isSome_iff_exists.mp (h r (by simp))
    have ht := ih (fun x hx => h x (by simp [hx]))
    simp [joinSummaries, hs, ht]

theorem joinSummaries_missing (rs : List ChunkResult)
    (h : ∃ r ∈ rs, ChunkResult.summary r = none) :
    joinSummaries rs = none := by
  induction rs with
  | nil => simp at h
  | cons r rest ih =>
    rcases h with ⟨x, hx, hnone⟩
    rcases List.mem_cons.mp hx with rfl | hmem
    · simp [joinSummaries, hnone]
    · have ht := ih ⟨x, hmem, hnone⟩
      cases hr : x.summary <;> cases hr' : r.summary <;> simp [joinSummaries, ht, hr']

/-- C2: for results that all carry the `"summary"` key (the shape the
ChunkResult data model of the spec guarantees), the aggregation at lines
189-194 returns the aggregate worded by the spec — summaries space-joined in input order, and the three
list fields flattened in input order with a missing field contributing an
empty sequence — and on the empty input it returns the empty aggregate. -/
theorem aggregation_spec_C2 (rs : List ChunkResult)
    (h : ∀ r ∈ rs, (ChunkResult.summary r).isSome) :
    aggregated_results rs = some (aggregateSpec rs)
    ∧ aggregated_results [] =
      some { summary := "", abnormal_results := [], charts := [], recommendations := [] } := by
  constructor
  · rw [aggregated_results, joinSummaries_all_some rs h]
    rfl
  · rfl

/-- Witness for C2 at two concrete results (one missing two list fields):
summaries join to "A B" and the lone recommendation survives. -/
theorem aggregation_spec_C2_witness :
    aggregated_results
        [⟨some "A", none, none, some ["x"]⟩, ⟨some "B", some [], none, none⟩] =
      some (aggregateSpec
        [⟨some "A", none, none, some ["x"]⟩, ⟨some "B", some [], none, none⟩])
    ∧ aggregated_results [] =
      some { summary := "", abnormal_results := [], charts := [], recommendations := [] }
    ∧ aggregateSpec
        [⟨some "A", none, none, some ["x"]⟩, ⟨some "B", some [], none, none⟩] =
      { summary := "A B", abnormal_results := [], charts := [], recommendations := ["x"] } := by
  refine ⟨(aggregation_spec_C2 _ (by decide)).1, (aggregation_spec_C2 [] (by decide)).2, ?_⟩
  decide

/-! ### C5: broadcast delivery-failure isolation (refuted) -/

/-- C5 counterexample: two registered subscribers `0, 1` iterated in that
order, the send to `0` raising.  The loop at lines 53-54 has no handler, so
the event is delivered to nobody else and the exception propagates out of
`broadcast_status_update`. -/
theorem broadcast_isolation_C5_counterexample :
    broadcast_status_update (fun d => d != 0) "status" [0, 1] = ([], some 0)
    ∧ (broadcast_status_update (fun d => d != 0) "status" [0, 1]).2 ≠ none
    ∧ (1, "status") ∉ (broadcast_status_update (fun d => d != 0) "status" [0, 1]).1 := by
  refine ⟨rfl, by decide, by decide⟩

/-- C5 amended: a delivery failure to one subscriber raises out of
`broadcast_status_update`; the subscribers before it in iteration order have
already received the event, and the subscribers after it receive nothing. -/
theorem broadcast_isolation_C5_amended (send : Nat → Bool) (msg : String)
    (pre : List Nat) (c : Nat) (post : List Nat)
    (hpre : ∀ d ∈ pre, send d = true) (hc : send c = false) :
    broadcast_status_update send msg (pre ++ c :: post) =
      (pre.map (fun d => (d, msg)), some c) := by
  induction pre with
  | nil => simp [broadcast_status_update, hc]
  | cons d rest ih =>
    have hd : send d = true := hpre d (by simp)
    have ht := ih (fun x hx => hpre x (by simp [hx]))
    simp [broadcast_status_update, hd, ht]

/-- Witness for the amended C5: subscriber 0 is delivered to, the send to 1
raises, subscriber 2 receives nothing. -/
theorem broadcast_isolation_C5_amended_witness :
    broadcast_status_update (fun d => d != 1) "status" ([0] ++ 1 :: [2]) =
      ([(0, "status")], some 1) :=
  broadcast_isolation_C5_amended (fun d => d != 1) "status" [0] 1 [2]
    (by decide) (by decide)

/-! ### C7: page-text joining (refuted: trailing newline) -/

theorem intercalate_newline_cons_cons (p q : List Char) (rest : List (List Char)) :
    List.intercalate ['\n'] (p :: q :: rest) =
      p ++ ['\n'] ++ List.intercalate ['\n'] (q :: rest) := by
  unfold List.intercalate
  rw [List.intersperse_cons_cons, List.flatten_cons, List.flatten_cons]
  simp [List.append_assoc]

/-- C7 counterexample: for the two page texts "a", "b" the statement
`extracted_text += page.extract_text() + "\n"` yields "a\nb\n" — 2 newlines
including a trailing one — not the claimed newline-separated join "a\nb"
with N-1 separators and no trailing newline. -/
theorem extraction_join_C7_counterexample :
    (extract_text_from_pdf [['a'], ['b']]).2 = ['a', '\n', 'b', '\n']
    ∧ (extract_text_from_pdf [['a'], ['b']]).2 ≠
        List.intercalate ['\n'] [['a'], ['b']] := by
  refine ⟨rfl, by decide⟩

/-- C7 amended: for N pages the extracted text is each page text followed
by a newline, i.e. the newline-intercalated pages plus one trailing
newline (N newlines in total); the empty page sequence yields empty text. -/
theorem extraction_join_C7_amended (pages : List (List Char)) :
    (extract_text_from_pdf pages).2 =
      if pages = [] then []
      else List.intercalate ['\n'] pages ++ ['\n'] := by
  induction pages with
  | nil => rfl
  | cons p rest ih =>
    rw [if_neg (by simp)]
    cases rest with
    | nil => simp [extract_text_from_pdf, List.intercalate]
    | cons q rest' =>
      have ih' := ih
      rw [if_neg (by simp)] at ih'
      simp only [extract_text_from_pdf] at ih' ⊢
      rw [List.flatMap_cons, ih', intercalate_newline_cons_cons]
      simp [List.append_assoc]

/-! ### C8: subscriber registration / unregistration -/

/-- C8 counterexample: unregistering an absent subscriber is
`active_connections.remove(...)` (line 49), Python `set.remove`, which
raises `KeyError` instead of being a silent no-op. -/
theorem subscriber_set_C8_counterexample :
    unregister (∅ : Finset Nat) 0 = Except.error "KeyError"
    ∧ unregister (∅ : Finset Nat) 0 ≠ Except.ok ((∅ : Finset Nat).erase 0) := by
  refine ⟨by decide, by decide⟩

/-- C8 amended: `register` adds the subscriber (a no-op when already
present); `unregister` removes it when present but raises `KeyError` when
absent. -/
theorem subscriber_set_C8_amended (conns : Finset Nat) (s : Nat) :
    register conns s = insert s conns
    ∧ (s ∈ conns → register conns s = conns)
    ∧ (s ∈ conns → unregister conns s = Except.ok (conns.erase s))
    ∧ (s ∉ conns → unregister conns s = Except.error "KeyError") := by
  refine ⟨rfl, ?_, ?_, ?_⟩
  · intro hs
    rw [register, Finset.insert_eq_self.mpr hs]
  · intro hs
    rw [unregister, if_pos hs]
  · intro hs
    rw [unregister, if_neg hs]

/-- Witness for the amended C8 at concrete sets: a present subscriber is
removed, an absent one raises `KeyError`, and re-adding a present one is a
no-op. -/
theorem subscriber_set_C8_amended_witness :
    register ({3} : Finset Nat) 3 = {3}
    ∧ unregister ({3} : Finset Nat) 3 = Except.ok (({3} : Finset Nat).erase 3)
    ∧ unregister ({4} : Finset Nat) 0 = Except.error "KeyError" :=
  ⟨(subscriber_set_C8_amended {3} 3).2.1 (by decide),
   (subscriber_set_C8_amended {3} 3).2.2.1 (by decide),
   (subscriber_set_C8_amended {4} 0).2.2.2 (by decide)⟩

/-! ### Chunk-loop lemmas -/

theorem chunkBlock_calls (o : Nat → CallOutcome) (total i : Nat) :
    (chunkBlock o total i).filterMap evCall = [i] := by
  cases h : o i <;> simp [chunkBlock, h, evCall]

theorem chunkBlock_processing (o : Nat → CallOutcome) (total i : Nat) :
    (chunkBlock o total i).filterMap evProcessing = [i] := by
  cases h : o i <;> simp [chunkBlock, h, evProcessing]

theorem chunkBlock_idx_replicate (o : Nat → CallOutcome) (total i : Nat) :
    ∃ m, (chunkBlock o total i).filterMap evChunkIdx = List.replicate m i := by
  cases h : o i
  · exact ⟨4, by simp [chunkBlock, h, evChunkIdx, List.replicate]⟩
  · exact ⟨5, by simp [chunkBlock, h, evChunkIdx, List.replicate]⟩
  · exact ⟨5, by simp [chunkBlock, h, evChunkIdx, List.replicate]⟩

theorem chunkLoop_results (o : Nat → CallOutcome) (total : Nat) (cs : List (List Char)) :
    ∀ i₀, (chunkLoop o total i₀ cs).2 =
      (List.range' i₀ cs.length).filterMap (fun i => outcomeResult (o i)) := by
  induction cs with
  | nil => intro i₀; rfl
  | cons c rest ih =>
    intro i₀
    rw [chunkLoop]
    simp only [List.length_cons, List.range'_succ, List.filterMap_cons]
    rw [ih (i₀ + 1)]
    cases h : outcomeResult (o i₀) <;> simp [h]

theorem chunkLoop_calls (o : Nat → CallOutcome) (total : Nat) (cs : List (List Char)) :
    ∀ i₀, (chunkLoop o total i₀ cs).1.filterMap evCall = List.range' i₀ cs.length := by
  induction cs with
  | nil => intro i₀; rfl
  | cons c rest ih =>
    intro i₀
    rw [chunkLoop]
    simp only [List.length_cons, List.range'_succ]
    rw [List.filterMap_append, chunkBlock_calls, ih (i₀ + 1)]
    rfl

theorem chunkLoop_processing (o : Nat → CallOutcome) (total : Nat) (cs : List (List Char)) :
    ∀ i₀, (chunkLoop o total i₀ cs).1.filterMap evProcessing = List.range' i₀ cs.length := by
  induction cs with
  | nil => intro i₀; rfl
  | cons c rest ih =>
    intro i₀
    rw [chunkLoop]
    simp only [List.length_cons, List.range'_succ]
    rw [List.filterMap_append, chunkBlock_processing, ih (i₀ + 1)]
    rfl

theorem chunkLoop_idx_ge (o : Nat → CallOutcome) (total : Nat) (cs : List (List Char)) :
    ∀ i₀, ∀ j ∈ (chunkLoop o total i₀ cs).1.filterMap evChunkIdx, i₀ ≤ j := by
  induction cs with
  | nil => intro i₀ j hj; simp [chunkLoop] at hj
  | cons c rest ih =>
    intro i₀ j hj
    rw [chunkLoop, List.filterMap_append] at hj
    rcases List.mem_append.mp hj with hh | ht
    · obtain ⟨m, hm⟩ := chunkBlock_idx_replicate o total i₀
      rw [hm] at hh
      exact (List.eq_of_mem_replicate hh).ge
    · have := ih (i₀ + 1) j ht
      omega

theorem chunkLoop_idx_sorted (o : Nat → CallOutcome) (total : Nat) (cs : List (List Char)) :
    ∀ i₀, List.Pairwise (· ≤ ·) ((chunkLoop o total i₀ cs).1.filterMap evChunkIdx) := by
  induction cs with
  | nil => intro i₀; simp [chunkLoop]
  | cons c rest ih =>
    intro i₀
    rw [chunkLoop, List.filterMap_append, List.pairwise_append]
    obtain ⟨m, hm⟩ := chunkBlock_idx_replicate o total i₀
    refine ⟨?_, ih (i₀ + 1), ?_⟩
    · rw [hm]
      exact List.pairwise_replicate.mpr (Or.inr le_rfl)
    · intro a ha b hb
      rw [hm] at ha
      have ha' := List.eq_of_mem_replicate ha
      have hb' := chunkLoop_idx_ge o total rest (i₀ + 1) b hb
      omega

theorem aggregated_results_all_some (rs : List ChunkResult)
    (h : ∀ r ∈ rs, (ChunkResult.summary r).isSome) :
    aggregated_results rs = some (aggregateSpec rs) := by
  rw [aggregated_results, joinSummaries_all_some rs h]
  rfl

theorem analyze_calls (o : Nat → CallOutcome) (T : List Char) :
    (analyze_pdf_content o T).1.filterMap evCall =
      List.range (content_chunks T).length := by
  rw [analyze_pdf_content]
  cases h :
      aggregated_results
        (chunkLoop o (content_chunks T).length 0 (content_chunks T)).2 <;>
    simp [h, evCall, List.filterMap_append, chunkLoop_calls, List.range_eq_range']

theorem analyze_processing (o : Nat → CallOutcome) (T : List Char) :
    (analyze_pdf_content o T).1.filterMap evProcessing =
      List.range (content_chunks T).length := by
  rw [analyze_pdf_content]
  cases h :
      aggregated_results
        (chunkLoop o (content_chunks T).length 0 (content_chunks T)).2 <;>
    simp [h, evProcessing, List.filterMap_append, chunkLoop_processing,
      List.range_eq_range']

theorem analyze_idx_sorted (o : Nat → CallOutcome) (T : List Char) :
    List.Pairwise (· ≤ ·) ((analyze_pdf_content o T).1.filterMap evChunkIdx) := by
  rw [analyze_pdf_content]
  cases h :
      aggregated_results
        (chunkLoop o (content_chunks T).length 0 (content_chunks T)).2 <;>
    simp [h, evChunkIdx, List.filterMap_append, chunkLoop_idx_sorted]

/-- C9: per-request chunk processing is strictly sequential.  The trace
(whose order is the execution order of the coroutine) contains exactly one HTTP
POST per chunk, in chunk order with no repetition (no retry) — chunk
the POST of chunk `i+1` appears only after everything chunk `i` did, since all
per-chunk events occur in non-decreasing chunk-index order — and the
per-chunk "Processing chunk i+1 of n..." progress broadcasts appear in
strictly increasing chunk-index order. -/
theorem sequential_chunk_calls_C9 (o : Nat → CallOutcome) (T : List Char) :
    (analyze_pdf_content o T).1.filterMap evCall =
      List.range (content_chunks T).length
    ∧ (analyze_pdf_content o T).1.filterMap evProcessing =
      List.range (content_chunks T).length
    ∧ List.Pairwise (· ≤ ·) ((analyze_pdf_content o T).1.filterMap evChunkIdx) :=
  ⟨analyze_calls o T, analyze_processing o T, analyze_idx_sorted o T⟩

/-- C3: when the model call or parse of at least one chunk fails and at least one
other chunk succeeds (its parsed dict carrying the "summary" key, as the
ChunkResult shape guarantees), the failure is absorbed inside the loop: the
pipeline still issues the call for every chunk, the failed chunks
contribute nothing, and the final result is a success carrying exactly the
contributions of the successful chunks in original chunk order. -/
theorem partial_failure_isolation_C3 (o : Nat → CallOutcome) (T : List Char)
    (hfail : ∃ i < (content_chunks T).length, outcomeResult (o i) = none)
    (hsucc : ∃ j < (content_chunks T).length, (outcomeResult (o j)).isSome)
    (hsum : ∀ i < (content_chunks T).length, ∀ res,
      outcomeResult (o i) = some res → (ChunkResult.summary res).isSome) :
    (analyze_pdf_content o T).2 =
      some (aggregateSpec ((List.range (content_chunks T).length).filterMap
        (fun i => outcomeResult (o i))))
    ∧ (analyze_pdf_content o T).1.filterMap evCall =
      List.range (content_chunks T).length := by
  refine ⟨?_, analyze_calls o T⟩
  have hres : (chunkLoop o (content_chunks T).length 0 (content_chunks T)).2 =
      (List.range (content_chunks T).length).filterMap (fun i => outcomeResult (o i)) := by
    rw [chunkLoop_results, List.range_eq_range']
  have hall : ∀ r ∈ (List.range (content_chunks T).length).filterMap
      (fun i => outcomeResult (o i)), (ChunkResult.summary r).isSome := by
    intro r hr
    obtain ⟨i, hi, hoi⟩ := List.mem_filterMap.mp hr
    exact hsum i (List.mem_range.mp hi) r hoi
  have hagg := aggregated_results_all_some _ hall
  rw [analyze_pdf_content]
  rw [hres, hagg]

/-- Witness for C3: a 1501-character text (2 chunks), the call for chunk 0
failing with an HTTP error, chunk 1 succeeding. -/
theorem partial_failure_isolation_C3_witness :
    (analyze_pdf_content
        (fun i => if i = 0 then CallOutcome.httpError "boom"
          else CallOutcome.success ⟨some "B", none, none, none⟩)
        (List.replicate 1501 'a')).2 =
      some (aggregateSpec
        ((List.range (content_chunks (List.replicate 1501 'a')).length).filterMap
          (fun i => outcomeResult (if i = 0 then CallOutcome.httpError "boom"
            else CallOutcome.success ⟨some "B", none, none, none⟩))))
    ∧ (analyze_pdf_content
        (fun i => if i = 0 then CallOutcome.httpError "boom"
          else CallOutcome.success ⟨some "B", none, none, none⟩)
        (List.replicate 1501 'a')).1.filterMap evCall =
      List.range (content_chunks (List.replicate 1501 'a')).length := by
  have hn : (content_chunks (List.replicate 1501 'a')).length = 2 := by
    rw [content_chunks_length, List.length_replicate]
  refine partial_failure_isolation_C3 _ _ ?_ ?_ ?_
  · exact ⟨0, by rw [hn]; omega, rfl⟩
  · exact ⟨1, by rw [hn]; omega, rfl⟩
  · intro i hi res hres
    rw [hn] at hi
    interval_cases i
    · simp [outcomeResult] at hres
    · simp [outcomeResult] at hres
      rw [← hres]
      rfl

/-! ### Handler-level claims -/

/-- C4 evaluated at the failing input: uploading under the non-PDF filename
"report.txt", the rejection is converted by the generic `except Exception`
handler into an HTTP 500 server error — not the 4xx client error the
`HTTPException(400)` at line 64 constructs — and a second (error) broadcast
is emitted after the initial "File received" event. -/
theorem nonpdf_rejection_C4_eval :
    (handle_pdf_upload (Except.ok []) (fun _ => CallOutcome.httpError "x")
        "report.txt" []).2 =
      Except.error ⟨500, "Error processing file: 400: Only PDF files are allowed"⟩
    ∧ (handle_pdf_upload (Except.ok []) (fun _ => CallOutcome.httpError "x")
        "report.txt" []).1 =
      [Ev.status "File received. Initiating analysis...",
       Ev.status "Error processing file: 400: Only PDF files are allowed"]
    ∧ ¬ (400 ≤ 500 ∧ 500 < 500) := by
  refine ⟨by decide, by decide, by omega⟩

/-- General behaviour behind C4: a non-PDF filename is rejected before any
extraction work
(the result does not depend on the extractor outcome or the model oracle,
and no model call event occurs), but the `HTTPException(400)` raised by the
check is caught by the surrounding `except Exception`, which broadcasts an
error event — so the trace is the initial "File received" event plus one
error event — and rewraps it, so the caller receives a 500 server error,
not a 4xx client error. -/
theorem nonpdf_rejection_general (pdfA pdfB : Except String (List (List Char)))
    (oA oB : Nat → CallOutcome) (filename : String) (bytes : List Nat)
    (h : endsWithPdf filename = false) :
    handle_pdf_upload pdfA oA filename bytes = handle_pdf_upload pdfB oB filename bytes
    ∧ (handle_pdf_upload pdfA oA filename bytes).2 =
      Except.error ⟨500, "Error processing file: 400: Only PDF files are allowed"⟩
    ∧ (handle_pdf_upload pdfA oA filename bytes).1 =
      [Ev.status "File received. Initiating analysis...",
       Ev.status "Error processing file: 400: Only PDF files are allowed"]
    ∧ (handle_pdf_upload pdfA oA filename bytes).1.filterMap evCall = [] := by
  refine ⟨?_, ?_, ?_, ?_⟩ <;> simp [handle_pdf_upload, h, evCall]

/-- Witness for the general non-PDF behaviour at the concrete filename
"notes.txt". -/
theorem nonpdf_rejection_general_witness :
    handle_pdf_upload (Except.ok [['x']]) (fun _ => CallOutcome.httpError "x")
        "notes.txt" [7] =
      handle_pdf_upload (Except.error "broken") (fun _ => CallOutcome.parseError "y")
        "notes.txt" [7]
    ∧ (handle_pdf_upload (Except.ok [['x']]) (fun _ => CallOutcome.httpError "x")
        "notes.txt" [7]).2 =
      Except.error ⟨500, "Error processing file: 400: Only PDF files are allowed"⟩
    ∧ (handle_pdf_upload (Except.ok [['x']]) (fun _ => CallOutcome.httpError "x")
        "notes.txt" [7]).1 =
      [Ev.status "File received. Initiating analysis...",
       Ev.status "Error processing file: 400: Only PDF files are allowed"]
    ∧ (handle_pdf_upload (Except.ok [['x']]) (fun _ => CallOutcome.httpError "x")
        "notes.txt" [7]).1.filterMap evCall = [] :=
  nonpdf_rejection_general (Except.ok [['x']]) (Except.error "broken")
    (fun _ => CallOutcome.httpError "x") (fun _ => CallOutcome.parseError "y")
    "notes.txt" [7] (by decide)

/-- C6: when extraction raises, the failure is fatal: the result does not
depend on the model oracle and the trace contains no model-call event
(`analyze_pdf_content` is never reached), the last broadcast is the error
event, and the caller receives a 500 server error wrapping the extraction
message of the extraction error — never a partial AggregatedResult. -/
theorem extraction_failure_fatal_C6 (e : String) (oA oB : Nat → CallOutcome)
    (filename : String) (bytes : List Nat) (h : endsWithPdf filename = true) :
    handle_pdf_upload (Except.error e) oA filename bytes =
      handle_pdf_upload (Except.error e) oB filename bytes
    ∧ (handle_pdf_upload (Except.error e) oA filename bytes).2 =
      Except.error ⟨500, "Error processing file: " ++ e⟩
    ∧ (handle_pdf_upload (Except.error e) oA filename bytes).1.filterMap evCall = []
    ∧ (handle_pdf_upload (Except.error e) oA filename bytes).1.getLast? =
      some (Ev.status ("Error processing file: " ++ e)) := by
  refine ⟨?_, ?_, ?_, ?_⟩ <;> simp [handle_pdf_upload, h, evCall]

/-- Witness for C6 at a concrete failing extraction. -/
theorem extraction_failure_fatal_C6_witness :
    handle_pdf_upload (Except.error "bad pdf") (fun _ => CallOutcome.httpError "x")
        "a.pdf" [1, 2] =
      handle_pdf_upload (Except.error "bad pdf") (fun _ => CallOutcome.parseError "y")
        "a.pdf" [1, 2]
    ∧ (handle_pdf_upload (Except.error "bad pdf") (fun _ => CallOutcome.httpError "x")
        "a.pdf" [1, 2]).2 =
      Except.error ⟨500, "Error processing file: " ++ "bad pdf"⟩
    ∧ (handle_pdf_upload (Except.error "bad pdf") (fun _ => CallOutcome.httpError "x")
        "a.pdf" [1, 2]).1.filterMap evCall = []
    ∧ (handle_pdf_upload (Except.error "bad pdf") (fun _ => CallOutcome.httpError "x")
        "a.pdf" [1, 2]).1.getLast? =
      some (Ev.status ("Error processing file: " ++ "bad pdf")) :=
  extraction_failure_fatal_C6 "bad pdf" (fun _ => CallOutcome.httpError "x")
    (fun _ => CallOutcome.parseError "y") "a.pdf" [1, 2] (by decide)

/-- C10: when the model call of every chunk succeeds but some parsed result
lacks the "summary" key, the access `result["summary"]` in the aggregation
raises a `KeyError` outside the per-chunk handler, so the whole request
fails with a 500 server error whose detail embeds the str of the KeyError
(the missing key in single quotes) even though one call per
chunk was issued and succeeded — unlike the three `get`-accessed list
fields, whose absence `aggregated_results` tolerates as empty. -/
theorem missing_summary_key_C10 (pages : List (List Char)) (o : Nat → CallOutcome)
    (r : Nat → ChunkResult) (filename : String) (bytes : List Nat)
    (hfn : endsWithPdf filename = true)
    (ho : ∀ i < (content_chunks (extract_text_from_pdf pages).2).length,
      o i = CallOutcome.success (r i))
    (hmiss : ∃ i < (content_chunks (extract_text_from_pdf pages).2).length,
      ChunkResult.summary (r i) = none) :
    (handle_pdf_upload (Except.ok pages) o filename bytes).2 =
      Except.error ⟨500, "Error processing file: \x27summary\x27"⟩
    ∧ (handle_pdf_upload (Except.ok pages) o filename bytes).1.filterMap evCall =
      List.range (content_chunks (extract_text_from_pdf pages).2).length := by
  have hres : (chunkLoop o (content_chunks (extract_text_from_pdf pages).2).length 0
      (content_chunks (extract_text_from_pdf pages).2)).2 =
      (List.range (content_chunks (extract_text_from_pdf pages).2).length).filterMap
        (fun i => outcomeResult (o i)) := by
    rw [chunkLoop_results, List.range_eq_range']
  have hcong : ∀ i ∈ List.range (content_chunks (extract_text_from_pdf pages).2).length,
      outcomeResult (o i) = (some ∘ r) i := by
    intro i hi
    rw [ho i (List.mem_range.mp hi)]
    rfl
  have hmap : (List.range (content_chunks (extract_text_from_pdf pages).2).length).filterMap
      (fun i => outcomeResult (o i)) =
      (List.range (content_chunks (extract_text_from_pdf pages).2).length).map r := by
    rw [List.filterMap_congr hcong, List.filterMap_eq_map]
  have hmiss' : ∃ rr ∈ (List.range
      (content_chunks (extract_text_from_pdf pages).2).length).map r,
      ChunkResult.summary rr = none := by
    obtain ⟨i, hi, hnone⟩ := hmiss
    exact ⟨r i, List.mem_map_of_mem r (List.mem_range.mpr hi), hnone⟩
  have hagg : aggregated_results ((List.range
      (content_chunks (extract_text_from_pdf pages).2).length).map r) = none := by
    rw [aggregated_results, joinSummaries_missing _ hmiss']
  have hana : (analyze_pdf_content o (extract_text_from_pdf pages).2).2 = none := by
    rw [analyze_pdf_content, hres, hmap, hagg]
  have hcalls := analyze_calls o (extract_text_from_pdf pages).2
  constructor
  · simp [handle_pdf_upload, hfn, hana]
  · simp [handle_pdf_upload, hfn, hana, evCall, List.filterMap_append, hcalls]
    intro a ha
    simp only [extract_text_from_pdf] at ha
    obtain ⟨i, hi, rfl⟩ := List.mem_map.mp ha
    rfl

/-- Witness for C10: a one-page, one-chunk document whose successful model
response parses to a dict without the "summary" key. -/
theorem missing_summary_key_C10_witness :
    (handle_pdf_upload (Except.ok [['x']])
        (fun _ => CallOutcome.success ⟨none, none, none, none⟩) "a.pdf" []).2 =
      Except.error ⟨500, "Error processing file: \x27summary\x27"⟩
    ∧ (handle_pdf_upload (Except.ok [['x']])
        (fun _ => CallOutcome.success ⟨none, none, none, none⟩) "a.pdf" []).1.filterMap
        evCall =
      List.range (content_chunks (extract_text_from_pdf [['x']]).2).length := by
  refine missing_summary_key_C10 [['x']]
    (fun _ => CallOutcome.success ⟨none, none, none, none⟩)
    (fun _ => ⟨none, none, none, none⟩) "a.pdf" [] (by decide) ?_ ?_
  · intro i _
    rfl
  · refine ⟨0, ?_, rfl⟩
    decide

end PHD
